import Mathlib

/-!
Verification of the genie-backend repository: a display-only client
(`src/main.cpp`) over the genie dat-file decoder.  The client is embedded
faithfully from `src/main.cpp`.  The decoder library (`genie::DatFile`) is
not part of the repository's sources, so its data model and `load`
operation are modelled from the specification (each such definition says
so in its doc comment).
-/

namespace Genie

/-- Modelled from the spec: the load-time error taxonomy (§7): the decoder
library is missing from the sources; `Load` fails with exactly one of
`TruncatedData`, `CorruptArchive`, `UnsupportedVersion`. -/
inductive LoadError where
  | TruncatedData
  | CorruptArchive
  | UnsupportedVersion
deriving DecidableEq, Repr

/-- Modelled from the spec: the post-load query failure (§4.6, §7): an
out-of-range index/id lookup fails with `NotFound`. -/
inductive QueryError where
  | NotFound
deriving DecidableEq, Repr

/-- Modelled from the spec: the message carried to the caller by a typed
load failure (observed by the client via `e.what()`). -/
def LoadError.what : LoadError → String
  | .TruncatedData => "Data is truncated"
  | .CorruptArchive => "Archive is corrupt"
  | .UnsupportedVersion => "Unsupported version"

/-- Modelled from the spec: the caller-declared target game version (§6);
a closed set of game releases; the client declares `GV_LatestDE2`. -/
inductive GameVersion where
  | GV_None
  | GV_AoE2
  | GV_LatestDE2
deriving DecidableEq, Repr

/-- Modelled from the spec: the closed set of supported format revisions
resolved from the version tag at the head of the buffer (§4.3). -/
inductive FormatVersion where
  | FV_Classic
  | FV_DE2
deriving DecidableEq, Repr

/-- Modelled from the spec: a technology record: a display name (possibly
empty, signaling an unused slot) and a numeric effect reference id (§3). -/
structure Tech where
  Name : String
  EffectID : Int
deriving DecidableEq, Repr

/-- Modelled from the spec: a unit record before reference resolution:
numeric id, display name, hit points, and raw numeric reference ids into
graphics/sounds/effects (§3, §4.4). -/
structure RawUnit where
  ID : Int
  Name : String
  HitPoints : Int
  RawGraphic : Int
  RawSound : Int
  RawEffect : Int
deriving DecidableEq, Repr

/-- Modelled from the spec: a resolved unit record: each reference is
either a valid index into the shared collection or an explicit absent
marker (§4.5, §6). -/
structure UnitRec where
  ID : Int
  Name : String
  HitPoints : Int
  GraphicRef : Option Nat
  SoundRef : Option Nat
  EffectRef : Option Nat
deriving DecidableEq, Repr

/-- Modelled from the spec: a civilization: display name and an owned
ordered sequence of unit instances (§3). -/
structure Civ where
  Name : String
  Units : List UnitRec
deriving DecidableEq, Repr

/-- Modelled from the spec: a graphic leaf record (§3). -/
structure Graphic where
  Name : String
deriving DecidableEq, Repr

/-- Modelled from the spec: a sound leaf record (§3). -/
structure Sound where
  Name : String
deriving DecidableEq, Repr

/-- Modelled from the spec: an effect leaf record (§3). -/
structure Effect where
  Name : String
deriving DecidableEq, Repr

/-- Modelled from the spec: the root aggregate (§3): format version and
six top-level ordered collections. -/
structure Archive where
  FileVersion : String
  Civs : List Civ
  Techs : List Tech
  Units : List UnitRec
  Graphics : List Graphic
  Sounds : List Sound
  Effects : List Effect
deriving DecidableEq, Repr

/-- A byte-cursor reader: consumes a prefix of the byte list, returning
the parsed value and the remaining bytes, or a typed load error. -/
def Reader (α : Type) : Type := List Nat → Except LoadError (α × List Nat)

/-- Bind of a successful step in an `Except` computation. -/
theorem except_ok_bind {ε α β : Type} (a : α) (f : α → Except ε β) :
    (Except.ok a >>= f) = f a := rfl

/-- Bind of a failed step in an `Except` computation. -/
theorem except_error_bind {ε α β : Type} (e : ε) (f : α → Except ε β) :
    ((Except.error e : Except ε α) >>= f) = Except.error e := rfl

/-- Modelled from the spec: byte-cursor fixed read of one byte (§4.1);
fails with `TruncatedData` when the buffer is exhausted. -/
def readU8 : Reader Nat := fun l =>
  match l with
  | [] => .error .TruncatedData
  | b :: rest => .ok (b % 256, rest)

/-- Modelled from the spec: byte-cursor fixed read of a 16-bit
little-endian unsigned integer (§4.1). -/
def readU16 : Reader Nat := fun l => do
  let (lo, l) ← readU8 l
  let (hi, l) ← readU8 l
  .ok (lo + 256 * hi, l)

/-- Modelled from the spec: byte-cursor fixed read of a 16-bit
little-endian signed integer (§4.1); values ≥ 2^15 wrap negative. -/
def readI16 : Reader Int := fun l => do
  let (n, l) ← readU16 l
  .ok (if n < 32768 then (n : Int) else (n : Int) - 65536, l)

/-- Modelled from the spec: byte-cursor read of exactly `n` raw bytes
(§4.1); fails with `TruncatedData` on a short read. -/
def readBytes : Nat → Reader (List Nat)
  | 0 => fun l => .ok ([], l)
  | n + 1 => fun l =>
    match l with
    | [] => .error .TruncatedData
    | b :: rest => do
      let (bs, l) ← readBytes n rest
      .ok (b % 256 :: bs, l)

/-- Modelled from the spec: the width of a string length prefix is
determined by the resolved format version (§4.1). -/
def readStrLen (fv : FormatVersion) : Reader Nat :=
  match fv with
  | .FV_Classic => readU8
  | .FV_DE2 => readU16

/-- Modelled from the spec: length-prefixed string read (§4.1): a length
field whose width depends on the format version, then that many bytes,
trimmed of one trailing null terminator if present. -/
def readString (fv : FormatVersion) : Reader String := fun l => do
  let (n, l) ← readStrLen fv l
  let (bs, l) ← readBytes n l
  let content := if bs.getLast? = some 0 then bs.dropLast else bs
  .ok (String.mk (content.map Char.ofNat), l)

/-- Modelled from the spec: read exactly `n` records with a record
reader (§4.4): a count of zero yields an empty sequence. -/
def readN (rd : Reader α) : Nat → Reader (List α)
  | 0 => fun l => .ok ([], l)
  | n + 1 => fun l => do
    let (x, l) ← rd l
    let (xs, l) ← readN rd n l
    .ok (x :: xs, l)

/-- Modelled from the spec: a count-prefixed homogeneous array (§4.4):
read an integer count, fail with `CorruptArchive` when the declared count
exceeds the remaining buffer (structurally implausible), then read exactly
that many records. -/
def readArray (rd : Reader α) : Reader (List α) := fun l => do
  let (n, l) ← readU16 l
  if l.length < n then .error .CorruptArchive
  else readN rd n l

/-- Modelled from the spec: the technology record reader (§3, §4.4). -/
def readTech (fv : FormatVersion) : Reader Tech := fun l => do
  let (name, l) ← readString fv l
  let (eff, l) ← readI16 l
  .ok (⟨name, eff⟩, l)

/-- Modelled from the spec: the unit record reader (§3, §4.4): the full
fixed-size record is consumed even when the name field is empty. -/
def readRawUnit (fv : FormatVersion) : Reader RawUnit := fun l => do
  let (uid, l) ← readI16 l
  let (name, l) ← readString fv l
  let (hp, l) ← readI16 l
  let (g, l) ← readI16 l
  let (s, l) ← readI16 l
  let (e, l) ← readI16 l
  .ok (⟨uid, name, hp, g, s, e⟩, l)

/-- Modelled from the spec: a raw civilization: name plus its owned unit
table, read as a count-prefixed array (§3, §4.4). -/
structure RawCiv where
  Name : String
  Units : List RawUnit
deriving DecidableEq, Repr

/-- Modelled from the spec: the civilization record reader (§3, §4.4). -/
def readRawCiv (fv : FormatVersion) : Reader RawCiv := fun l => do
  let (name, l) ← readString fv l
  let (us, l) ← readArray (readRawUnit fv) l
  .ok (⟨name, us⟩, l)

/-- Modelled from the spec: the graphic record reader (§3). -/
def readGraphic (fv : FormatVersion) : Reader Graphic := fun l => do
  let (name, l) ← readString fv l
  .ok (⟨name⟩, l)

/-- Modelled from the spec: the sound record reader (§3). -/
def readSound (fv : FormatVersion) : Reader Sound := fun l => do
  let (name, l) ← readString fv l
  .ok (⟨name⟩, l)

/-- Modelled from the spec: the effect record reader (§3). -/
def readEffect (fv : FormatVersion) : Reader Effect := fun l => do
  let (name, l) ← readString fv l
  .ok (⟨name⟩, l)

/-- Modelled from the spec: inflate of the compressed block (§4.2),
modelled as run-length pairs (count, byte); an incomplete trailing pair
(unexpected end of the compressed stream) fails with `CorruptArchive`. -/
def inflate : List Nat → Except LoadError (List Nat)
  | [] => .ok []
  | [_] => .error .CorruptArchive
  | c :: b :: rest => do
    let tl ← inflate rest
    .ok (List.replicate (c % 256) (b % 256) ++ tl)

/-- Modelled from the spec: the decompression stage (§4.2): a fixed-size
header byte marks the payload as compressed (1) or raw; a compressed
payload is inflated, a raw payload is returned unchanged after the
header. -/
def decompress (bytes : List Nat) : Except LoadError (List Nat) :=
  match bytes with
  | [] => .error .TruncatedData
  | flag :: rest => if flag = 1 then inflate rest else .ok rest

/-- Modelled from the spec: the version resolver (§4.3): maps the tag
byte to a supported format revision, checked against the caller-declared
game version; an unknown tag, or a DE2 archive declared as a non-DE2
game, fails with `UnsupportedVersion`. -/
def resolveVersion (gv : GameVersion) (tag : Nat) :
    Except LoadError FormatVersion :=
  if tag = 1 then .ok .FV_Classic
  else if tag = 2 then
    if gv = .GV_LatestDE2 then .ok .FV_DE2 else .error .UnsupportedVersion
  else .error .UnsupportedVersion

/-- Modelled from the spec: the printable file-version string carried by
the archive for each resolved revision. -/
def fileVersionString : FormatVersion → String
  | .FV_Classic => "VER 5.7"
  | .FV_DE2 => "VER 7.8"

/-- Modelled from the spec: reference resolution (§4.5): a raw reference
id resolves to a valid index into the shared collection, or to the
explicit absent marker when it is the negative sentinel or out of
range. -/
def resolveRef (size : Nat) (r : Int) : Option Nat :=
  if 0 ≤ r ∧ r.toNat < size then some r.toNat else none

/-- Modelled from the spec: the resolution pass over one raw unit (§4.5):
rewrites raw numeric cross-references into validated indices against the
fully populated shared collections. -/
def resolveUnit (ng ns ne : Nat) (u : RawUnit) : UnitRec :=
  ⟨u.ID, u.Name, u.HitPoints,
   resolveRef ng u.RawGraphic, resolveRef ns u.RawSound,
   resolveRef ne u.RawEffect⟩

/-- Modelled from the spec: the archive assembler (§4.5): runs the
readers in the fixed top-level order (graphics, sounds, effects,
technologies, global unit pool, civilizations), then resolves unit
cross-references against the populated shared collections. -/
def parseArchive (fv : FormatVersion) (l : List Nat) :
    Except LoadError Archive := do
  let (gs, l) ← readArray (readGraphic fv) l
  let (ss, l) ← readArray (readSound fv) l
  let (es, l) ← readArray (readEffect fv) l
  let (ts, l) ← readArray (readTech fv) l
  let (pool, l) ← readArray (readRawUnit fv) l
  let (cs, _) ← readArray (readRawCiv fv) l
  let res := resolveUnit gs.length ss.length es.length
  .ok { FileVersion := fileVersionString fv
        Civs := cs.map (fun c => ⟨c.Name, c.Units.map res⟩)
        Techs := ts
        Units := pool.map res
        Graphics := gs
        Sounds := ss
        Effects := es }

/-- Modelled from the spec: `Load(bytes, declared_version)` (§6):
decompression stage, then version resolution, then record readers and
assembly; returns an `Archive` or fails with one typed load error. -/
def Load (bytes : List Nat) (gv : GameVersion) :
    Except LoadError Archive := do
  let payload ← decompress bytes
  let (tag, l) ← readU8 payload
  let fv ← resolveVersion gv tag
  parseArchive fv l

/-- Modelled from the spec: `Archive.Civilization(index)` (§4.6, §6):
an index outside the valid range fails with `NotFound`. -/
def Archive.Civilization (a : Archive) (i : Nat) : Except QueryError Civ :=
  if h : i < a.Civs.length then .ok (a.Civs.get ⟨i, h⟩)
  else .error .NotFound

/-- Modelled from the spec: `Archive.Technology(index)` (§4.6, §6). -/
def Archive.Technology (a : Archive) (i : Nat) : Except QueryError Tech :=
  if h : i < a.Techs.length then .ok (a.Techs.get ⟨i, h⟩)
  else .error .NotFound

/-- Modelled from the spec: the global unit pool lookup by index
(§4.6). -/
def Archive.UnitAt (a : Archive) (i : Nat) : Except QueryError UnitRec :=
  if h : i < a.Units.length then .ok (a.Units.get ⟨i, h⟩)
  else .error .NotFound

/-- Modelled from the spec: graphic lookup by index (§4.6). -/
def Archive.GraphicAt (a : Archive) (i : Nat) : Except QueryError Graphic :=
  if h : i < a.Graphics.length then .ok (a.Graphics.get ⟨i, h⟩)
  else .error .NotFound

/-- Modelled from the spec: sound lookup by index (§4.6). -/
def Archive.SoundAt (a : Archive) (i : Nat) : Except QueryError Sound :=
  if h : i < a.Sounds.length then .ok (a.Sounds.get ⟨i, h⟩)
  else .error .NotFound

/-- Modelled from the spec: effect lookup by index (§4.6). -/
def Archive.EffectAt (a : Archive) (i : Nat) : Except QueryError Effect :=
  if h : i < a.Effects.length then .ok (a.Effects.get ⟨i, h⟩)
  else .error .NotFound

/-- Modelled from the spec: `Civilization.Unit(index)` (§4.6, §6). -/
def Civ.UnitAt (c : Civ) (i : Nat) : Except QueryError UnitRec :=
  if h : i < c.Units.length then .ok (c.Units.get ⟨i, h⟩)
  else .error .NotFound

/-- Modelled from the spec: `Archive.TechnologyCount()` (§6). -/
def Archive.TechnologyCount (a : Archive) : Nat := a.Techs.length

/-- Modelled from the spec: the decoder object of the client: it holds
the caller-declared game version set by `setGameVersion` before `load`
begins (§6). -/
structure DatFile where
  gameVersion : GameVersion
deriving DecidableEq, Repr

/-- Modelled from the spec: a freshly constructed `DatFile` has no
declared game version yet. -/
def DatFile.init : DatFile := ⟨.GV_None⟩

/-- Modelled from the spec: the caller declares the target game version
before decode begins (§6). -/
def DatFile.setGameVersion (_df : DatFile) (gv : GameVersion) : DatFile :=
  ⟨gv⟩

/-- Modelled from the spec: `DatFile::load(path)` (§6): a byte-supplying
collaborator `fs` hands the decoder the complete buffer for the path;
decoding itself is `Load` on those bytes and the declared version. -/
def DatFile.loadVia (df : DatFile) (fs : String → List Nat)
    (path : String) : Except LoadError Archive :=
  Load (fs path) df.gameVersion

end Genie

namespace Client

open Genie

/-- One print statement of `src/main.cpp`, with its dynamic data.  The
constructors appear in the order that the statements occur in the source;
`usage` and `failedLoad` go to stderr, all others to stdout. -/
inductive Line where
  | usage (prog : String)
  | loading (path : String)
  | failedLoad (msg : String)
  | fileVersion (v : String)
  | blank
  | civHeader (n : Nat)
  | civRow (i : Nat) (name : String)
  | techHeader (n : Nat)
  | techRow (i : Nat) (name : String)
  | techMore (n : Nat)
  | unitHeader (civName : String) (n : Nat)
  | unitRow (uid : Int) (name : String) (hp : Int)
  | unitMore (n : Nat)
  | summaryHeader
  | graphicsCount (n : Nat)
  | soundsCount (n : Nat)
  | effectsCount (n : Nat)
deriving DecidableEq, Repr

/-- Observable decoder-facing actions of the client, in program order:
constructing the `DatFile`, declaring the game version, starting the
load. -/
inductive Event where
  | constructDatFile
  | setVersion (gv : GameVersion)
  | loadStart (path : String)
deriving DecidableEq, Repr

/-- The outcome of one client run: process exit code, printed lines in
order, and decoder-facing events in order. -/
structure ClientResult where
  exitCode : Nat
  lines : List Line
  events : List Event
deriving DecidableEq, Repr

/-- The dat path built by `main.cpp` line 15 from the game directory
argument. -/
def datPath (gameDir : String) : String :=
  gameDir ++ "/resources/_common/dat/empires2_x2_p1.dat"

/-- The technology listing loop of `main.cpp` lines 41-46: iterate the
indices `0 ≤ i < min(size, 10)`, printing a row for slot `i` exactly
when its name is non-empty. -/
def techRowLines (techs : List Tech) : List Line :=
  let techLimit := min techs.length 10
  (List.range techLimit).filterMap fun i =>
    match techs[i]? with
    | some t => if t.Name.isEmpty then none else some (.techRow i t.Name)
    | none => none

/-- The conditional "... and N more" of `main.cpp` lines 47-48. -/
def techMoreLines (techs : List Tech) : List Line :=
  let techLimit := min techs.length 10
  if techs.length > techLimit then [.techMore (techs.length - techLimit)]
  else []

/-- The unit listing loop of `main.cpp` lines 55-63: walk the units in
order while fewer than 10 rows have been printed, printing and counting
only units with a non-empty name; returns the rows and the final
`printed` counter. -/
def unitLoop (us : List UnitRec) (printed : Nat) : List Line × Nat :=
  match us with
  | [] => ([], printed)
  | u :: rest =>
    if printed < 10 then
      if u.Name.isEmpty then unitLoop rest printed
      else (.unitRow u.ID u.Name u.HitPoints :: (unitLoop rest (printed + 1)).1,
            (unitLoop rest (printed + 1)).2)
    else ([], printed)

/-- The unit section of `main.cpp` lines 52-66: entered only when the
civilization collection is non-empty; `gaia` is `Civs[0]`. -/
def unitSection (civs : List Civ) : List Line :=
  match civs with
  | [] => []
  | gaia :: _ =>
    let (rows, printed) := unitLoop gaia.Units 0
    [.unitHeader gaia.Name gaia.Units.length] ++ rows ++
      (if gaia.Units.length > printed
       then [.unitMore (gaia.Units.length - printed)] else [])

/-- The output printed by `main.cpp` lines 29-73 for a successfully
loaded archive, in source order. -/
def successLines (path : String) (a : Archive) : List Line :=
  [.loading path, .fileVersion a.FileVersion, .blank,
   .civHeader a.Civs.length] ++
  (a.Civs.enum.map fun p => .civRow p.1 p.2.Name) ++
  [.blank, .techHeader a.Techs.length] ++
  techRowLines a.Techs ++ techMoreLines a.Techs ++ [.blank] ++
  unitSection a.Civs ++ [.blank, .summaryHeader,
   .graphicsCount a.Graphics.length, .soundsCount a.Sounds.length,
   .effectsCount a.Effects.length]

/-- The embedding of `main` from `src/main.cpp`.  `prog` is `argv[0]`
and `args` the remaining arguments, so `argc < 2` is `args = []`.  The
byte-supplying collaborator `fs` stands for the filesystem. -/
def clientMain (prog : String) (args : List String)
    (fs : String → List Nat) : ClientResult :=
  match args with
  | [] => ⟨1, [.usage prog], []⟩
  | gameDir :: _ =>
    let path := datPath gameDir
    let df := DatFile.init.setGameVersion .GV_LatestDE2
    let events := [.constructDatFile, .setVersion GameVersion.GV_LatestDE2,
                   Event.loadStart path]
    match df.loadVia fs path with
    | .error e => ⟨1, [.loading path, .failedLoad e.what], events⟩
    | .ok a => ⟨0, successLines path a, events⟩

end Client

namespace Client

/-- Checks that along a trace of client events, every `loadStart` is
preceded by an earlier `setVersion`; `seen` records whether a version
has been declared so far. -/
def versionDeclaredBeforeLoad (seen : Bool) : List Event → Bool
  | [] => true
  | Event.setVersion _ :: rest => versionDeclaredBeforeLoad true rest
  | Event.loadStart _ :: rest => seen && versionDeclaredBeforeLoad seen rest
  | Event.constructDatFile :: rest => versionDeclaredBeforeLoad seen rest

/-- Recognizes a technology row in the printed output. -/
def Line.isTechRow : Line → Bool
  | .techRow _ _ => true
  | _ => false

/-- Recognizes a unit row in the printed output. -/
def Line.isUnitRow : Line → Bool
  | .unitRow _ _ _ => true
  | _ => false

end Client

namespace Genie

/-- A minimal well-formed input: raw envelope, classic version tag, six
empty top-level arrays. -/
def emptyArchiveBytes : List Nat := [0, 1, 0, 0, 0, 0, 0, 0, 0, 0, 0, 0, 0, 0]

/-- The archive decoded from `emptyArchiveBytes`. -/
def emptyArchive : Archive := ⟨"VER 5.7", [], [], [], [], [], []⟩

/-- A count-prefixed technology array declaring 10 slots of which only
the first 3 carry non-empty names. -/
def techSectionBytes : List Nat :=
  [10, 0] ++
  [1, 65, 0, 0] ++ [1, 66, 0, 0] ++ [1, 67, 0, 0] ++
  [0, 0, 0] ++ [0, 0, 0] ++ [0, 0, 0] ++ [0, 0, 0] ++
  [0, 0, 0] ++ [0, 0, 0] ++ [0, 0, 0]

/-- A well-formed input whose technology array is `techSectionBytes`
(declared count 10, 3 non-empty names) and whose other collections are
empty. -/
def techScenarioBytes : List Nat :=
  [0, 1] ++ [0, 0] ++ [0, 0] ++ [0, 0] ++ techSectionBytes ++ [0, 0] ++ [0, 0]

end Genie

open Genie Client

/-- C1: for every post-load query of the archive by index (civilization,
technology, unit, graphic, sound, effect, and a civilization's unit), an
index outside the valid range of the queried collection fails with
`NotFound`; it never returns a default or empty value. -/
theorem c1_out_of_range_query_fails_notFound (a : Archive) (c : Civ) (i : Nat) :
    (a.Civs.length ≤ i → a.Civilization i = .error .NotFound) ∧
    (a.Techs.length ≤ i → a.Technology i = .error .NotFound) ∧
    (a.Units.length ≤ i → a.UnitAt i = .error .NotFound) ∧
    (a.Graphics.length ≤ i → a.GraphicAt i = .error .NotFound) ∧
    (a.Sounds.length ≤ i → a.SoundAt i = .error .NotFound) ∧
    (a.Effects.length ≤ i → a.EffectAt i = .error .NotFound) ∧
    (c.Units.length ≤ i → c.UnitAt i = .error .NotFound) := by
  refine ⟨fun h => ?_, fun h => ?_, fun h => ?_, fun h => ?_,
          fun h => ?_, fun h => ?_, fun h => ?_⟩
  · unfold Archive.Civilization; rw [dif_neg (by omega)]
  · unfold Archive.Technology; rw [dif_neg (by omega)]
  · unfold Archive.UnitAt; rw [dif_neg (by omega)]
  · unfold Archive.GraphicAt; rw [dif_neg (by omega)]
  · unfold Archive.SoundAt; rw [dif_neg (by omega)]
  · unfold Archive.EffectAt; rw [dif_neg (by omega)]
  · unfold Civ.UnitAt; rw [dif_neg (by omega)]

/-- Witness for C1 at the empty archive and index 0. -/
theorem c1_witness :
    emptyArchive.Civilization 0 = .error .NotFound ∧
    emptyArchive.Technology 0 = .error .NotFound ∧
    emptyArchive.UnitAt 0 = .error .NotFound ∧
    emptyArchive.GraphicAt 0 = .error .NotFound ∧
    emptyArchive.SoundAt 0 = .error .NotFound ∧
    emptyArchive.EffectAt 0 = .error .NotFound ∧
    Civ.UnitAt ⟨"Gaia", []⟩ 0 = .error .NotFound := by
  have h := c1_out_of_range_query_fails_notFound emptyArchive ⟨"Gaia", []⟩ 0
  exact ⟨h.1 (by decide), h.2.1 (by decide), h.2.2.1 (by decide),
         h.2.2.2.1 (by decide), h.2.2.2.2.1 (by decide),
         h.2.2.2.2.2.1 (by decide), h.2.2.2.2.2.2 (by decide)⟩

/-- C2: the client's load is the pure `Load` applied to the bytes handed
over by the byte-supplying collaborator and the declared version: its
result depends on the path only through the supplied buffer, so two
suppliers that agree on the buffer for a path give the same result. -/
theorem c2_load_function_of_bytes (df : DatFile)
    (fs₁ fs₂ : String → List Nat) (path : String)
    (h : fs₁ path = fs₂ path) :
    df.loadVia fs₁ path = Load (fs₁ path) df.gameVersion ∧
    df.loadVia fs₁ path = df.loadVia fs₂ path := by
  refine ⟨rfl, ?_⟩
  unfold DatFile.loadVia
  rw [h]

/-- Witness for C2: two distinct suppliers that agree on the bytes of a
concrete path give equal load results. -/
theorem c2_witness :
    (fun _ : String => emptyArchiveBytes) "p" =
      (fun s : String => if s = s then emptyArchiveBytes else []) "p" ∧
    DatFile.loadVia ⟨.GV_AoE2⟩ (fun _ => emptyArchiveBytes) "p" =
      Load ((fun _ : String => emptyArchiveBytes) "p") GameVersion.GV_AoE2 ∧
    DatFile.loadVia ⟨.GV_AoE2⟩ (fun _ => emptyArchiveBytes) "p" =
      DatFile.loadVia ⟨.GV_AoE2⟩
        (fun s => if s = s then emptyArchiveBytes else []) "p" := by
  refine ⟨by simp, ?_⟩
  exact c2_load_function_of_bytes ⟨.GV_AoE2⟩ _ _ "p" (by simp)

/-- C4: `Load` is deterministic: two successful runs on the same bytes
with the same declared version yield equal archives, in particular
identical collections (sizes, ordering and field values). -/
theorem c4_load_deterministic (b : List Nat) (gv : GameVersion)
    (a₁ a₂ : Archive) (h₁ : Load b gv = .ok a₁) (h₂ : Load b gv = .ok a₂) :
    a₁ = a₂ ∧ a₁.FileVersion = a₂.FileVersion ∧ a₁.Civs = a₂.Civs ∧
    a₁.Techs = a₂.Techs ∧ a₁.Units = a₂.Units ∧
    a₁.Graphics = a₂.Graphics ∧ a₁.Sounds = a₂.Sounds ∧
    a₁.Effects = a₂.Effects := by
  rw [h₁] at h₂
  have he : a₁ = a₂ := Except.ok.inj h₂
  subst he
  exact ⟨rfl, rfl, rfl, rfl, rfl, rfl, rfl, rfl⟩

/-- Witness for C4 at a concrete well-formed input. -/
theorem c4_witness :
    Load emptyArchiveBytes .GV_AoE2 = .ok emptyArchive ∧
    emptyArchive = emptyArchive :=
  ⟨rfl, (c4_load_deterministic emptyArchiveBytes .GV_AoE2
          emptyArchive emptyArchive rfl rfl).1⟩

/-- C7: `Load` either returns an archive or fails with exactly one of the
three typed errors, and in the client a run with a game-directory
argument either succeeds or surfaces one of those three typed failures
as its single error message. -/
theorem c7_typed_error_taxonomy :
    (∀ (b : List Nat) (gv : GameVersion),
      (∃ a, Load b gv = .ok a) ∨
      Load b gv = .error .TruncatedData ∨
      Load b gv = .error .CorruptArchive ∨
      Load b gv = .error .UnsupportedVersion) ∧
    (∀ (prog d : String) (args : List String) (fs : String → List Nat),
      (∃ a, clientMain prog (d :: args) fs =
        ⟨0, successLines (datPath d) a,
         [.constructDatFile, .setVersion .GV_LatestDE2,
          .loadStart (datPath d)]⟩) ∨
      (∃ e, (e = LoadError.TruncatedData ∨ e = .CorruptArchive ∨
             e = .UnsupportedVersion) ∧
        clientMain prog (d :: args) fs =
          ⟨1, [.loading (datPath d), .failedLoad e.what],
           [.constructDatFile, .setVersion .GV_LatestDE2,
            .loadStart (datPath d)]⟩)) := by
  constructor
  · intro b gv
    match h : Load b gv with
    | .ok a => exact Or.inl ⟨a, rfl⟩
    | .error .TruncatedData => exact Or.inr (Or.inl rfl)
    | .error .CorruptArchive => exact Or.inr (Or.inr (Or.inl rfl))
    | .error .UnsupportedVersion => exact Or.inr (Or.inr (Or.inr rfl))
  · intro prog d args fs
    match h : Load (fs (datPath d)) .GV_LatestDE2 with
    | .ok a =>
      refine Or.inl ⟨a, ?_⟩
      simp [clientMain, DatFile.loadVia, DatFile.init, DatFile.setGameVersion, h]
    | .error e =>
      refine Or.inr ⟨e, by cases e <;> simp, ?_⟩
      simp [clientMain, DatFile.loadVia, DatFile.init, DatFile.setGameVersion, h]

/-- C5: in every client run, the target game version is declared
(`setGameVersion`) before the decode (`load`) starts: along the event
trace, every `loadStart` is preceded by an earlier `setVersion`. -/
theorem c5_version_declared_before_load (prog : String) (args : List String)
    (fs : String → List Nat) :
    versionDeclaredBeforeLoad false (clientMain prog args fs).events = true := by
  cases args with
  | nil => rfl
  | cons d rest =>
    cases h : (DatFile.init.setGameVersion .GV_LatestDE2).loadVia fs (datPath d) <;>
      simp [clientMain, h, versionDeclaredBeforeLoad]

/-- C8: a client invocation with fewer than two command-line arguments
prints the usage message, exits with code 1, and performs no decoder
action at all (no `DatFile` construction, no load). -/
theorem c8_usage_on_missing_argument (prog : String) (fs : String → List Nat) :
    clientMain prog [] fs = ⟨1, [.usage prog], []⟩ := rfl

/-- C3: when the load fails, the client prints the loading banner and a
single error message, exits with code 1, and prints no archive field at
all. -/
theorem c3_failed_load_prints_single_error (prog d : String)
    (args : List String) (fs : String → List Nat) (e : LoadError)
    (h : Load (fs (datPath d)) .GV_LatestDE2 = .error e) :
    clientMain prog (d :: args) fs =
      ⟨1, [.loading (datPath d), .failedLoad e.what],
       [.constructDatFile, .setVersion .GV_LatestDE2,
        .loadStart (datPath d)]⟩ := by
  simp [clientMain, DatFile.loadVia, DatFile.init, DatFile.setGameVersion, h]

/-- Witness for C3: the empty byte buffer fails to load and the client
prints exactly the banner and one error message. -/
theorem c3_witness :
    Load ((fun _ : String => ([] : List Nat)) (datPath "d")) .GV_LatestDE2 =
      .error .TruncatedData ∧
    clientMain "genie" ["d"] (fun _ => []) =
      ⟨1, [.loading (datPath "d"),
           .failedLoad LoadError.TruncatedData.what],
       [.constructDatFile, .setVersion .GV_LatestDE2,
        .loadStart (datPath "d")]⟩ :=
  ⟨rfl, c3_failed_load_prints_single_error "genie" "d" [] (fun _ => [])
    .TruncatedData rfl⟩

/-- `readN` returns exactly as many records as requested. -/
theorem readN_length {α : Type} (rd : Reader α) :
    ∀ (n : Nat) (l : List Nat) (xs : List α) (rest : List Nat),
      readN rd n l = .ok (xs, rest) → xs.length = n := by
  intro n
  induction n with
  | zero =>
    intro l xs rest h
    simp [readN] at h
    simp [h.1]
  | succ n ih =>
    intro l xs rest h
    cases h1 : rd l with
    | error e => simp [readN, h1, except_error_bind] at h
    | ok p =>
      obtain ⟨x, l'⟩ := p
      cases h2 : readN rd n l' with
      | error e => simp [readN, h1, h2, except_ok_bind, except_error_bind] at h
      | ok q =>
        obtain ⟨xs', rest'⟩ := q
        simp [readN, h1, h2, except_ok_bind] at h
        obtain ⟨h3, _⟩ := h
        simp [← h3, ih l' xs' rest' h2]

/-- Every technology row printed by the listing loop names a non-empty
slot among the first ten. -/
theorem techRow_mem_techRowLines {ts : List Tech} {i : Nat} {nm : String}
    (h : Line.techRow i nm ∈ techRowLines ts) :
    i < 10 ∧ i < ts.length ∧ nm.isEmpty = false ∧
      ∃ t, ts[i]? = some t ∧ t.Name = nm := by
  unfold techRowLines at h
  rw [List.mem_filterMap] at h
  obtain ⟨j, hj, he⟩ := h
  rw [List.mem_range] at hj
  cases hg : ts[j]? with
  | none => simp [hg] at he
  | some t =>
    by_cases hemp : t.Name.isEmpty
    · simp [hg, hemp] at he
    · simp [hg, hemp] at he
      obtain ⟨hji, hnm⟩ := he
      subst hji
      subst hnm
      exact ⟨by omega, by omega, Bool.eq_false_iff.mpr hemp, t, hg, rfl⟩

/-- Every element of the technology listing loop's output is a
technology row. -/
theorem mem_techRowLines {ts : List Tech} {x : Line}
    (h : x ∈ techRowLines ts) : ∃ i nm, x = .techRow i nm := by
  unfold techRowLines at h
  rw [List.mem_filterMap] at h
  obtain ⟨j, _, he⟩ := h
  cases hg : ts[j]? with
  | none => simp [hg] at he
  | some t =>
    by_cases hemp : t.Name.isEmpty
    · simp [hg, hemp] at he
    · simp [hg, hemp] at he
      exact ⟨j, t.Name, he.symm⟩

/-- The technology "... and N more" line appears exactly when more than
ten slots exist, and then reports the number of slots past the tenth. -/
theorem techMore_mem_techMoreLines {ts : List Tech} {n : Nat} :
    Line.techMore n ∈ techMoreLines ts ↔
      10 < ts.length ∧ n = ts.length - 10 := by
  unfold techMoreLines
  rcases le_or_lt ts.length 10 with hle | hlt
  · rw [Nat.min_eq_left hle]
    simp
    omega
  · rw [Nat.min_eq_right (by omega)]
    simp [hlt]

/-- Every element of the technology "more" segment is a `techMore`
line. -/
theorem mem_techMoreLines {ts : List Tech} {x : Line}
    (h : x ∈ techMoreLines ts) : ∃ n, x = .techMore n := by
  unfold techMoreLines at h
  rcases Nat.lt_or_ge (min ts.length 10) ts.length with hlt | hge
  · simp [hlt] at h
    exact ⟨ts.length - min ts.length 10, h⟩
  · simp [Nat.not_lt.mpr hge] at h

/-- Every row printed by the unit listing loop comes from a unit of the
list with a non-empty name. -/
theorem mem_unitLoop {us : List UnitRec} {p : Nat} {x : Line}
    (h : x ∈ (unitLoop us p).1) :
    ∃ u, u ∈ us ∧ x = .unitRow u.ID u.Name u.HitPoints ∧
      u.Name.isEmpty = false := by
  induction us generalizing p with
  | nil => simp [unitLoop] at h
  | cons u rest ih =>
    unfold unitLoop at h
    by_cases hp : p < 10
    · by_cases hemp : u.Name.isEmpty
      · simp [hp, hemp] at h
        obtain ⟨v, hv, hx⟩ := ih h
        exact ⟨v, List.mem_cons_of_mem u hv, hx⟩
      · simp [hp, hemp] at h
        rcases h with h | h
        · exact ⟨u, List.mem_cons_self u rest, h,
                 Bool.eq_false_iff.mpr hemp⟩
        · obtain ⟨v, hv, hx⟩ := ih h
          exact ⟨v, List.mem_cons_of_mem u hv, hx⟩
    · simp [hp, unitLoop] at h

/-- The unit listing loop's final counter is its starting counter plus
the number of rows it printed. -/
theorem unitLoop_printed (us : List UnitRec) :
    ∀ p, (unitLoop us p).2 = p + (unitLoop us p).1.length := by
  induction us with
  | nil => intro p; simp [unitLoop]
  | cons u rest ih =>
    intro p
    by_cases hp : p < 10
    · by_cases hemp : u.Name.isEmpty
      · simp [unitLoop, hp, hemp]
        exact ih p
      · simp [unitLoop, hp, hemp, ih (p + 1)]
        omega
    · simp [unitLoop, hp]

/-- The unit listing loop prints at most `10 - p` rows when started with
counter `p`. -/
theorem unitLoop_length_le (us : List UnitRec) :
    ∀ p, (unitLoop us p).1.length ≤ 10 - p := by
  induction us with
  | nil => intro p; simp [unitLoop]
  | cons u rest ih =>
    intro p
    by_cases hp : p < 10
    · by_cases hemp : u.Name.isEmpty
      · simp [unitLoop, hp, hemp]
        exact ih p
      · simp [unitLoop, hp, hemp]
        have := ih (p + 1)
        omega
    · simp [unitLoop, hp]

/-- The rows of the unit listing loop are, in order, a selection of the
non-empty-name units of the list. -/
theorem unitLoop_sublist (us : List UnitRec) :
    ∀ p, List.Sublist (unitLoop us p).1
      ((us.filter fun u => !u.Name.isEmpty).map
        (fun u => Line.unitRow u.ID u.Name u.HitPoints)) := by
  induction us with
  | nil => intro p; simp [unitLoop]
  | cons u rest ih =>
    intro p
    by_cases hp : p < 10
    · by_cases hemp : u.Name.isEmpty
      · simp [unitLoop, hp, hemp, List.filter_cons]
        exact ih p
      · simp [unitLoop, hp, hemp, List.filter_cons]
        exact ih (p + 1)
    · simp [unitLoop, hp]

/-- Every line of the unit section is a unit header, unit row, or unit
"more" line. -/
theorem mem_unitSection {civs : List Civ} {x : Line}
    (h : x ∈ unitSection civs) :
    (∃ nm n, x = .unitHeader nm n) ∨
    (∃ uid nm hp, x = .unitRow uid nm hp) ∨
    (∃ n, x = .unitMore n) := by
  cases civs with
  | nil => simp [unitSection] at h
  | cons gaia tl =>
    unfold unitSection at h
    simp only [List.mem_append, List.mem_cons, List.mem_singleton] at h
    rcases h with (h | h) | h
    · exact Or.inl ⟨gaia.Name, gaia.Units.length, by simpa using h⟩
    · obtain ⟨u, _, hx, _⟩ := mem_unitLoop h
      exact Or.inr (Or.inl ⟨u.ID, u.Name, u.HitPoints, hx⟩)
    · by_cases hc : gaia.Units.length > (unitLoop gaia.Units 0).2
      · simp [hc] at h
        exact Or.inr (Or.inr ⟨gaia.Units.length - (unitLoop gaia.Units 0).2, h⟩)
      · simp [hc] at h

/-- C6: the technology collection reports the declared on-disk count
including unused slots: a count-prefixed technology array yields exactly
the declared number of records, `TechnologyCount` is the full collection
size, the client prints that full size as the total, and empty-name
entries are merely skipped in the per-row listing. -/
theorem c6_tech_count_includes_unused :
    (∀ (fv : FormatVersion) (l l₂ : List Nat) (n : Nat) (ts : List Tech)
       (rest : List Nat),
      readU16 l = .ok (n, l₂) →
      readArray (readTech fv) l = .ok (ts, rest) →
      ts.length = n) ∧
    (∀ a : Archive, a.TechnologyCount = a.Techs.length) ∧
    (∀ (path : String) (a : Archive),
      Line.techHeader a.Techs.length ∈ successLines path a) ∧
    (∀ (path : String) (a : Archive) (i : Nat) (nm : String),
      Line.techRow i nm ∈ successLines path a → nm.isEmpty = false) := by
  refine ⟨?_, fun a => rfl, ?_, ?_⟩
  · intro fv l l₂ n ts rest h1 h2
    simp [readArray, h1, except_ok_bind] at h2
    split at h2
    · simp at h2
    · exact readN_length _ n l₂ ts rest h2
  · intro path a
    simp [successLines]
  · intro path a i nm h
    simp [successLines] at h
    rcases h with h | h | h
    · exact (techRow_mem_techRowLines h).2.2.1
    · obtain ⟨m, hm⟩ := mem_techMoreLines h
      simp at hm
    · rcases mem_unitSection h with ⟨nm', n', he⟩ | ⟨u1, u2, u3, he⟩ |
        ⟨m, he⟩ <;> simp at he

/-- C9: when the loaded archive has no civilizations, the client's unit
section is skipped entirely: no unit header, unit row, or unit "more"
line is printed. -/
theorem c9_zero_civs_skips_unit_section (prog d : String)
    (args : List String) (fs : String → List Nat) (a : Archive)
    (h : Load (fs (datPath d)) .GV_LatestDE2 = .ok a)
    (hc : a.Civs = []) :
    unitSection a.Civs = [] ∧
    (∀ nm n, Line.unitHeader nm n ∉ (clientMain prog (d :: args) fs).lines) ∧
    (∀ uid nm hp,
      Line.unitRow uid nm hp ∉ (clientMain prog (d :: args) fs).lines) ∧
    (∀ n, Line.unitMore n ∉ (clientMain prog (d :: args) fs).lines) := by
  have hl : (clientMain prog (d :: args) fs).lines =
      successLines (datPath d) a := by
    simp [clientMain, DatFile.loadVia, DatFile.init, DatFile.setGameVersion, h]
  have hu : unitSection a.Civs = [] := by rw [hc]; rfl
  refine ⟨hu, ?_, ?_, ?_⟩
  · intro nm n hmem
    rw [hl] at hmem
    simp [successLines, hu] at hmem
    rcases hmem with h' | h'
    · obtain ⟨i', nm', he⟩ := mem_techRowLines h'
      simp at he
    · obtain ⟨m, he⟩ := mem_techMoreLines h'
      simp at he
  · intro uid nm hp hmem
    rw [hl] at hmem
    simp [successLines, hu] at hmem
    rcases hmem with h' | h'
    · obtain ⟨i', nm', he⟩ := mem_techRowLines h'
      simp at he
    · obtain ⟨m, he⟩ := mem_techMoreLines h'
      simp at he
  · intro n hmem
    rw [hl] at hmem
    simp [successLines, hu] at hmem
    rcases hmem with h' | h'
    · obtain ⟨i', nm', he⟩ := mem_techRowLines h'
      simp at he
    · obtain ⟨m, he⟩ := mem_techMoreLines h'
      simp at he

/-- The technology listing prints at most ten rows. -/
theorem techRowLines_length_le (ts : List Tech) :
    (techRowLines ts).length ≤ 10 := by
  have h1 := List.length_filterMap_le
    (fun i => match ts[i]? with
      | some t => if t.Name.isEmpty then none else some (Line.techRow i t.Name)
      | none => none)
    (List.range (min ts.length 10))
  rw [List.length_range] at h1
  calc (techRowLines ts).length
      = (List.filterMap
          (fun i => match ts[i]? with
            | some t => if t.Name.isEmpty then none
                        else some (Line.techRow i t.Name)
            | none => none)
          (List.range (min ts.length 10))).length := rfl
    _ ≤ min ts.length 10 := h1
    _ ≤ 10 := Nat.min_le_right _ _

/-- Technology rows are the only technology rows of the full output:
counting them over the whole output counts exactly the listing loop's
rows. -/
theorem countP_techRow_successLines (path : String) (a : Archive) :
    (successLines path a).countP Line.isTechRow =
      (techRowLines a.Techs).length := by
  have h1 : (a.Civs.enum.map fun p => Line.civRow p.1 p.2.Name).countP
      Line.isTechRow = 0 :=
    List.countP_eq_zero.mpr (by
      intro x hx
      obtain ⟨p, _, hp⟩ := List.mem_map.mp hx
      simp [← hp, Line.isTechRow])
  have h2 : (techRowLines a.Techs).countP Line.isTechRow =
      (techRowLines a.Techs).length :=
    List.countP_eq_length.mpr (by
      intro x hx
      obtain ⟨i, nm, he⟩ := mem_techRowLines hx
      simp [he, Line.isTechRow])
  have h3 : (techMoreLines a.Techs).countP Line.isTechRow = 0 :=
    List.countP_eq_zero.mpr (by
      intro x hx
      obtain ⟨m, he⟩ := mem_techMoreLines hx
      simp [he, Line.isTechRow])
  have h4 : (unitSection a.Civs).countP Line.isTechRow = 0 :=
    List.countP_eq_zero.mpr (by
      intro x hx
      rcases mem_unitSection hx with ⟨nm, n, he⟩ | ⟨u1, u2, u3, he⟩ |
        ⟨n, he⟩ <;> simp [he, Line.isTechRow])
  simp [successLines, List.countP_append, List.countP_cons,
        Line.isTechRow, h1, h2, h3, h4]

/-- Unit rows appear only inside the unit section of the output. -/
theorem countP_unitRow_successLines (path : String) (a : Archive) :
    (successLines path a).countP Line.isUnitRow =
      (unitSection a.Civs).countP Line.isUnitRow := by
  have h1 : (a.Civs.enum.map fun p => Line.civRow p.1 p.2.Name).countP
      Line.isUnitRow = 0 :=
    List.countP_eq_zero.mpr (by
      intro x hx
      obtain ⟨p, _, hp⟩ := List.mem_map.mp hx
      simp [← hp, Line.isUnitRow])
  have h2 : (techRowLines a.Techs).countP Line.isUnitRow = 0 :=
    List.countP_eq_zero.mpr (by
      intro x hx
      obtain ⟨i, nm, he⟩ := mem_techRowLines hx
      simp [he, Line.isUnitRow])
  have h3 : (techMoreLines a.Techs).countP Line.isUnitRow = 0 :=
    List.countP_eq_zero.mpr (by
      intro x hx
      obtain ⟨m, he⟩ := mem_techMoreLines hx
      simp [he, Line.isUnitRow])
  simp [successLines, List.countP_append, List.countP_cons,
        Line.isUnitRow, h1, h2, h3]

/-- The unit section prints at most ten unit rows. -/
theorem unitSection_countP_unitRow_le (civs : List Civ) :
    (unitSection civs).countP Line.isUnitRow ≤ 10 := by
  cases civs with
  | nil => simp [unitSection]
  | cons gaia tl =>
    have hrows : ((unitLoop gaia.Units 0).1).countP Line.isUnitRow ≤ 10 := by
      have hle := List.countP_le_length (l := (unitLoop gaia.Units 0).1)
        Line.isUnitRow
      have hlen := unitLoop_length_le gaia.Units 0
      omega
    unfold unitSection
    simp only [List.countP_append, List.countP_cons]
    have hmore : (if gaia.Units.length > (unitLoop gaia.Units 0).2
        then [Line.unitMore (gaia.Units.length - (unitLoop gaia.Units 0).2)]
        else []).countP Line.isUnitRow = 0 := by
      split <;> simp [Line.isUnitRow]
    simp [Line.isUnitRow, hmore]
    omega

/-- The technology "more" line appears in the output exactly when the
listing loop emits it. -/
theorem techMore_mem_successLines (path : String) (a : Archive) (n : Nat) :
    Line.techMore n ∈ successLines path a ↔
      Line.techMore n ∈ techMoreLines a.Techs := by
  constructor
  · intro h
    simp [successLines] at h
    rcases h with h | h | h
    · obtain ⟨i, nm, he⟩ := mem_techRowLines h
      simp at he
    · exact h
    · rcases mem_unitSection h with ⟨nm, m, he⟩ | ⟨u1, u2, u3, he⟩ |
        ⟨m, he⟩ <;> simp at he
  · intro h
    simp [successLines]
    tauto

/-- The unit "more" line appears in the output exactly when the unit
section emits it. -/
theorem unitMore_mem_successLines (path : String) (a : Archive) (n : Nat) :
    Line.unitMore n ∈ successLines path a ↔
      Line.unitMore n ∈ unitSection a.Civs := by
  constructor
  · intro h
    simp [successLines] at h
    rcases h with h | h | h
    · obtain ⟨i, nm, he⟩ := mem_techRowLines h
      simp at he
    · obtain ⟨m, he⟩ := mem_techMoreLines h
      simp at he
    · exact h
  · intro h
    simp [successLines]
    tauto

/-- The unit "more" line is emitted exactly when units remain beyond the
printed ones, and then reports their number. -/
theorem unitMore_mem_unitSection {civs : List Civ} {n : Nat} :
    Line.unitMore n ∈ unitSection civs ↔
      ∃ gaia tl, civs = gaia :: tl ∧
        (unitLoop gaia.Units 0).2 < gaia.Units.length ∧
        n = gaia.Units.length - (unitLoop gaia.Units 0).2 := by
  cases civs with
  | nil => simp [unitSection]
  | cons gaia tl =>
    unfold unitSection
    constructor
    · intro h
      simp only [List.mem_append, List.mem_cons, List.mem_singleton,
                 List.not_mem_nil] at h
      rcases h with (h | h) | h
      · simp at h
      · obtain ⟨u, _, hx, _⟩ := mem_unitLoop h
        simp at hx
      · by_cases hc : gaia.Units.length > (unitLoop gaia.Units 0).2
        · simp [hc] at h
          exact ⟨gaia, tl, rfl, hc, h⟩
        · simp [hc] at h
    · rintro ⟨g, t, he, hlt, hn⟩
      injection he with he1 he2
      subst he1
      subst hn
      simp [List.mem_append, hlt]

/-- C10: for every loaded archive the client prints at most 10
technology rows, all drawn from the first 10 slots with non-empty names;
at most 10 unit rows, drawn in order from Gaia's non-empty-name units;
and each "... and N more" line appears exactly when entries remain
beyond those printed, reporting their number. -/
theorem c10_listing_limits (prog d : String) (args : List String)
    (fs : String → List Nat) (a : Archive)
    (h : Load (fs (datPath d)) .GV_LatestDE2 = .ok a) :
    ((clientMain prog (d :: args) fs).lines.countP Line.isTechRow ≤ 10) ∧
    (∀ i nm, Line.techRow i nm ∈ (clientMain prog (d :: args) fs).lines →
      i < 10 ∧ nm.isEmpty = false) ∧
    (∀ n, Line.techMore n ∈ (clientMain prog (d :: args) fs).lines ↔
      10 < a.Techs.length ∧ n = a.Techs.length - 10) ∧
    ((clientMain prog (d :: args) fs).lines.countP Line.isUnitRow ≤ 10) ∧
    (∀ gaia tl, a.Civs = gaia :: tl →
      List.Sublist (unitLoop gaia.Units 0).1
        ((gaia.Units.filter fun u => !u.Name.isEmpty).map
          (fun u => Line.unitRow u.ID u.Name u.HitPoints))) ∧
    (∀ n, Line.unitMore n ∈ (clientMain prog (d :: args) fs).lines ↔
      ∃ gaia tl, a.Civs = gaia :: tl ∧
        (unitLoop gaia.Units 0).2 < gaia.Units.length ∧
        n = gaia.Units.length - (unitLoop gaia.Units 0).2) := by
  have hl : (clientMain prog (d :: args) fs).lines =
      successLines (datPath d) a := by
    simp [clientMain, DatFile.loadVia, DatFile.init, DatFile.setGameVersion, h]
  refine ⟨?_, ?_, ?_, ?_, ?_, ?_⟩
  · rw [hl, countP_techRow_successLines]
    exact techRowLines_length_le a.Techs
  · intro i nm hm
    rw [hl] at hm
    simp [successLines] at hm
    rcases hm with hm | hm | hm
    · obtain ⟨h10, _, hne, _⟩ := techRow_mem_techRowLines hm
      exact ⟨h10, hne⟩
    · obtain ⟨m, he⟩ := mem_techMoreLines hm
      simp at he
    · rcases mem_unitSection hm with ⟨nm', m, he⟩ | ⟨u1, u2, u3, he⟩ |
        ⟨m, he⟩ <;> simp at he
  · intro n
    rw [hl, techMore_mem_successLines, techMore_mem_techMoreLines]
  · rw [hl, countP_unitRow_successLines]
    exact unitSection_countP_unitRow_le a.Civs
  · intro gaia tl _
    exact unitLoop_sublist gaia.Units 0
  · intro n
    rw [hl, unitMore_mem_successLines, unitMore_mem_unitSection]

/-- The ten technology records of the declared-count-10 scenario: three
non-empty names followed by seven unused slots. -/
def techScenarioTechs : List Tech :=
  [⟨"A", 0⟩, ⟨"B", 0⟩, ⟨"C", 0⟩, ⟨"", 0⟩, ⟨"", 0⟩,
   ⟨"", 0⟩, ⟨"", 0⟩, ⟨"", 0⟩, ⟨"", 0⟩, ⟨"", 0⟩]

/-- The archive decoded from `techScenarioBytes`. -/
def techScenarioArchive : Archive :=
  ⟨"VER 5.7", [], techScenarioTechs, [], [], [], []⟩

/-- Witness for C6: a technology array with declared count 10 and only 3
non-empty names decodes to exactly 10 records. -/
theorem c6_witness :
    readU16 techSectionBytes = .ok (10, techSectionBytes.drop 2) ∧
    readArray (readTech .FV_Classic) techSectionBytes =
      .ok (techScenarioTechs, []) ∧
    techScenarioTechs.length = 10 :=
  ⟨rfl, rfl,
   c6_tech_count_includes_unused.1 .FV_Classic techSectionBytes
     (techSectionBytes.drop 2) 10 techScenarioTechs [] rfl rfl⟩

/-- Witness for C9: loading a concrete archive with zero civilizations
prints no unit header. -/
theorem c9_witness :
    Line.unitHeader "" 0 ∉
      (clientMain "genie" ["d"] (fun _ => emptyArchiveBytes)).lines :=
  (c9_zero_civs_skips_unit_section "genie" "d" []
    (fun _ => emptyArchiveBytes) emptyArchive rfl rfl).2.1 "" 0

/-- Witness for C10: on a concrete load the client prints at most ten
technology rows. -/
theorem c10_witness :
    (clientMain "genie" ["d"]
      (fun _ => techScenarioBytes)).lines.countP Line.isTechRow ≤ 10 :=
  (c10_listing_limits "genie" "d" [] (fun _ => techScenarioBytes)
    techScenarioArchive rfl).1
